import Mathlib

/-!
Verification of the progression & ranking engine of the dailytaiyari backend.

The definitions below are shallow embeddings of the Python source:
* `calculate_level` embeds `StudentProfile.calculate_level` (backend/users/models.py);
* `award_xp` embeds `GamificationService.award_xp` (backend/gamification/services.py);
* `update_streak` embeds `Streak.update_streak` (backend/analytics/models.py);
* `update_mastery` embeds `TopicMastery.update_mastery` (backend/analytics/models.py);
* `badgeQualifies` / `check_and_award_badges` embed
  `GamificationService.check_and_award_badges` (backend/gamification/services.py);
* `update_leaderboard` / `get_leaderboard` embed the corresponding
  `GamificationService` methods (backend/gamification/services.py).

Machine integers are modelled as `Int`/`Nat` (Python integers are unbounded),
exact fractions as `Rat` (the decimal quantities involved never leave ℚ).
Database persistence (`save`, `objects.create`) is modelled by explicit state
passing: the XP transaction table is a `List Txn` that each call appends to.
-/

namespace DailyTaiyari

/-- One transaction type of `XPTransaction.TRANSACTION_TYPES`
(backend/gamification/models.py). -/
inductive TType where
  | quiz_complete | mock_test | daily_goal | streak_bonus | badge_earned
  | level_up | referral | challenge_win | manual
deriving DecidableEq, Repr

/-- The loop body of `StudentProfile.calculate_level`:
`while xp >= required_xp: xp -= required_xp; level += 1; required_xp = int(required_xp * 1.5)`.
The `while` loop is embedded with explicit fuel; `calculate_level` supplies
fuel `xp.toNat + 1`, which `levelLoop_fuel_irrel` shows is enough, since each
iteration runs only when `required ≤ xp` and (with `1 ≤ required`) strictly
decreases `xp.toNat`.  `int(required_xp * 1.5)` on a positive Python int is
`required * 3 / 2` (exact float product, truncated). -/
def levelLoop : ℕ → ℤ → ℤ → ℕ → ℕ
  | 0, _, _, level => level
  | fuel + 1, xp, required, level =>
    if required ≤ xp then levelLoop fuel (xp - required) (required * 3 / 2) (level + 1)
    else level

/-- `StudentProfile.calculate_level` (backend/users/models.py lines 175-184):
level 1 at 0 XP, the first tier costs 100 XP and each next tier costs
`int(previous * 1.5)`. -/
def calculate_level (total_xp : ℤ) : ℕ :=
  levelLoop (total_xp.toNat + 1) total_xp 100 1

/-- Transaction record: the fields of `XPTransaction`
(backend/gamification/models.py) that the engine writes. -/
structure Txn where
  ttype : TType
  xp_amount : ℤ
  balance_after : ℤ
deriving DecidableEq, Repr

/-- Student state mutated by `award_xp`: the denormalized counters of
`StudentProfile` (backend/users/models.py). -/
structure Student where
  total_xp : ℤ
  current_level : ℕ
deriving DecidableEq, Repr

/-- Result dict returned by `GamificationService.award_xp`. -/
structure AwardRes where
  xp_awarded : ℤ
  level_up : Bool
  new_level : ℕ
  level_bonus : ℤ
deriving DecidableEq, Repr

/-- `GamificationService.award_xp` (backend/gamification/services.py lines
16-67), restricted to the student counters and the transaction table (the
`DailyActivity` sync touches neither).  Steps, in source order:
`total_xp += amount`; `new_level = calculate_level()`; on level-up set
`current_level` and add `new_level * 50` to `total_xp`; write the primary
transaction with `balance_after = student.total_xp` (the post-bonus total);
on level-up write a second `level_up` row, also with
`balance_after = student.total_xp`. -/
def award_xp (s : Student) (ledger : List Txn) (amount : ℤ) (ttype : TType) :
    Student × List Txn × AwardRes :=
  let total₁ := s.total_xp + amount
  let new_level := calculate_level total₁
  let level_up := decide (s.current_level < new_level)
  let level_bonus : ℤ := if level_up then (new_level : ℤ) * 50 else 0
  let total₂ := total₁ + level_bonus
  let current' := if level_up then new_level else s.current_level
  let primary : Txn := ⟨ttype, amount, total₂⟩
  let bonusRows : List Txn := if level_up then [⟨TType.level_up, level_bonus, total₂⟩] else []
  (⟨total₂, current'⟩, ledger ++ [primary] ++ bonusRows,
    ⟨amount, level_up, new_level, level_bonus⟩)

/-- A sequence of `award_xp` calls for one student, folded over
student-plus-ledger state. -/
def processCalls (s : Student) (ledger : List Txn) : List (ℤ × TType) → Student × List Txn
  | [] => (s, ledger)
  | (amount, ttype) :: rest =>
    let r := award_xp s ledger amount ttype
    processCalls r.1 r.2.1 rest

/-- A fresh student: `total_xp` defaults to 0 and `current_level` to 1
(backend/users/models.py lines 147-148). -/
def initStudent : Student := ⟨0, 1⟩

/-- Sum of the `xp_amount` column of a ledger. -/
def ledgerSum (l : List Txn) : ℤ := (l.map Txn.xp_amount).sum

/-- The claimed per-row balance invariant: every row's `balance_after` equals
the sum of all `xp_amount` up to and including that row, in creation order. -/
def balanceInvariant (l : List Txn) : Prop :=
  ∀ i, (h : i < l.length) → ledgerSum (l.take (i + 1)) = (l.get ⟨i, h⟩).balance_after

instance (l : List Txn) : Decidable (balanceInvariant l) := by
  unfold balanceInvariant; infer_instance

/-- Tier requirement sequence of the level curve as the spec words it: the
first tier costs 100 XP and each subsequent tier costs `⌊previous * 1.5⌋`. -/
def tierReq : ℕ → ℤ
  | 0 => 100
  | n + 1 => tierReq n * 3 / 2

/-- Cumulative XP threshold at which level `L + 1` begins, per the spec:
the sum of the first `L` tier requirements (so `boundary 1 = 100`). -/
def boundary (L : ℕ) : ℤ := ((List.range L).map tierReq).sum

/-- The persisted fields of `Streak` (backend/analytics/models.py lines
174-207).  Dates are modelled as integers (days); `DateField` columns that
may be NULL are `Option ℤ`. -/
structure StreakS where
  current_streak : ℕ
  last_activity_date : Option ℤ
  longest_streak : ℕ
  longest_streak_start : Option ℤ
  longest_streak_end : Option ℤ
  total_active_days : ℕ
deriving DecidableEq, Repr

/-- The tail of `Streak.update_streak` shared by every branch that does not
return early: `last_activity_date = activity_date`, `total_active_days += 1`,
then the new-record check, including the (always-true) inner
`if self.longest_streak == self.current_streak` guard around
`longest_streak_start`, reproduced as written. -/
def streakFinish (s : StreakS) (cur : ℕ) (d : ℤ) : StreakS :=
  let s₁ : StreakS := { s with current_streak := cur, last_activity_date := some d,
                               total_active_days := s.total_active_days + 1 }
  if s₁.longest_streak < s₁.current_streak then
    let s₂ : StreakS := { s₁ with longest_streak := s₁.current_streak,
                                  longest_streak_end := some d }
    if s₂.longest_streak = s₂.current_streak then
      { s₂ with longest_streak_start := some (d - ((s₂.current_streak : ℤ) - 1)) }
    else s₂
  else s₁

/-- `Streak.update_streak` (backend/analytics/models.py lines 210-236).
The `elif` chain: unset date → streak 1; same day → early `return`;
`last + 1` → increment; `> last + 1` → reset to 1; any other date (i.e. a
date earlier than `last_activity_date`) matches no branch and leaves
`current_streak` untouched before the shared tail runs. -/
def update_streak (s : StreakS) (activity_date : ℤ) : StreakS :=
  match s.last_activity_date with
  | none => streakFinish s 1 activity_date
  | some last =>
    if activity_date = last then s
    else if activity_date = last + 1 then streakFinish s (s.current_streak + 1) activity_date
    else if last + 1 < activity_date then streakFinish s 1 activity_date
    else streakFinish s s.current_streak activity_date

/-- A `Streak` row as created by the ORM: every counter at its default 0 and
every date NULL. -/
def streakInit : StreakS := ⟨0, none, 0, none, none, 0⟩

/-- A sequence of `update_streak` calls. -/
def runStreak (s : StreakS) (ds : List ℤ) : StreakS := ds.foldl update_streak s

/-- The persisted fields of `TopicMastery` (backend/analytics/models.py)
touched by `update_mastery`.  The decimal columns are exact rationals. -/
structure MasteryS where
  total_questions_attempted : ℕ
  total_correct_answers : ℕ
  accuracy_percentage : ℚ
  average_time_per_question : ℕ
  mastery_score : ℚ
  mastery_level : ℕ
  needs_revision : Bool
deriving DecidableEq, Repr

/-- The threshold ladder at the end of `TopicMastery.update_mastery`:
`>= 90 → 5`, `>= 75 → 4`, `>= 60 → 3`, `>= 40 → 2`, else 1. -/
def masteryLevelOf (score : ℚ) : ℕ :=
  if 90 ≤ score then 5
  else if 75 ≤ score then 4
  else if 60 ≤ score then 3
  else if 40 ≤ score then 2
  else 1

/-- `TopicMastery.update_mastery` (backend/analytics/models.py lines 59-94):
add the new counts, recompute `accuracy_percentage` when the denominator is
positive, average the time estimate (`int((old + new) / 2)`, floor division
on non-negative values), weight accuracy by
`volume_factor = min(1, attempted / 50)` into `mastery_score`, and map the
score through the threshold ladder. -/
def update_mastery (m : MasteryS) (correct total avg_time : ℕ) : MasteryS :=
  let tqa := m.total_questions_attempted + total
  let tca := m.total_correct_answers + correct
  let acc : ℚ := if 0 < tqa then ((tca : ℚ) / (tqa : ℚ)) * 100 else m.accuracy_percentage
  let avgT : ℕ := if m.average_time_per_question = 0 then avg_time
                  else (m.average_time_per_question + avg_time) / 2
  let vf : ℚ := min 1 ((tqa : ℚ) / 50)
  let score : ℚ := acc * (1/2 + 1/2 * vf)
  { total_questions_attempted := tqa
    total_correct_answers := tca
    accuracy_percentage := acc
    average_time_per_question := avgT
    mastery_score := score
    mastery_level := masteryLevelOf score
    needs_revision := masteryLevelOf score ≤ 2 }

/-- Requirement keys recognised by the `elif` chain of
`GamificationService.check_and_award_badges`, plus `unknown` for any other
JSON key an admin may author. -/
inductive ReqKey where
  | streak_days | quizzes_completed | min_accuracy | total_xp | topics_mastered
  | questions_answered | perfect_quiz | speed_quiz | mock_tests_completed
  | early_study | night_study | weekend_study | comeback | top_10
  | physics_mastery | chemistry_mastery | biology_mastery
  | unknown (tag : ℕ)
deriving DecidableEq, Repr

/-- Whether a key is one the `elif` chain tests for. -/
def recognizedKey : ReqKey → Bool
  | .unknown _ => false
  | _ => true

/-- A `Badge` catalog row (backend/gamification/models.py): its id, its
`requirements` JSON object (a finite key-value map, modelled as an
association list with distinct keys), and its `xp_reward`. -/
structure BadgeB where
  bid : ℕ
  requirements : List (ReqKey × ℚ)
  xp_reward : ℤ
deriving DecidableEq, Repr

/-- `'key' in requirements` on the JSON dict. -/
def hasKey (req : List (ReqKey × ℚ)) (k : ReqKey) : Bool :=
  req.any (fun p => p.1 == k)

/-- `requirements['key']` (first binding; dict keys are unique). -/
def getVal (req : List (ReqKey × ℚ)) (k : ReqKey) : ℚ :=
  (((req.find? (fun p => p.1 == k)).map Prod.snd).getD 0)

/-- The aggregate student statistics `check_and_award_badges` queries, other
than `student.total_xp` (which is threaded separately because awarding badge
XP mutates it mid-pass): the first `Streak` row's `current_streak` (if any),
completed quiz / mock-test counts, `overall_accuracy`, counts of topics at
mastery level ≥ 4 (overall and per subject), `total_questions_attempted`,
the count of 100% quizzes, and whether a leaderboard entry with rank ≤ 10
exists. -/
structure BadgeStats where
  streak : Option ℕ
  quiz_count : ℕ
  overall_accuracy : ℚ
  topics_mastered : ℕ
  total_questions_attempted : ℕ
  perfect_count : ℕ
  mock_count : ℕ
  has_top10_entry : Bool
  physics_mastered : ℕ
  chemistry_mastered : ℕ
  biology_mastered : ℕ
deriving DecidableEq, Repr

/-- The one-shot `context` flags of `check_and_award_badges`. -/
structure BadgeCtx where
  perfect_quiz : Bool
  speed_quiz : Bool
  early_study : Bool
  night_study : Bool
  weekend_study : Bool
  comeback : Bool
deriving DecidableEq, Repr

/-- The per-badge `elif` chain of `GamificationService.check_and_award_badges`
(backend/gamification/services.py lines 96-224), computing `qualified`.
`xp` is the student's current `total_xp`.  Branches are tested in source
order; a requirements object containing none of the recognised keys falls
through with `qualified = False`. -/
def badgeQualifies (b : BadgeB) (xp : ℤ) (st : BadgeStats) (ctx : BadgeCtx) : Bool :=
  let r := b.requirements
  if hasKey r .streak_days then
    match st.streak with
    | some cs => decide (getVal r .streak_days ≤ (cs : ℚ))
    | none => false
  else if hasKey r .quizzes_completed then decide (getVal r .quizzes_completed ≤ (st.quiz_count : ℚ))
  else if hasKey r .min_accuracy then decide (getVal r .min_accuracy ≤ st.overall_accuracy)
  else if hasKey r .total_xp then decide (getVal r .total_xp ≤ (xp : ℚ))
  else if hasKey r .topics_mastered then decide (getVal r .topics_mastered ≤ (st.topics_mastered : ℚ))
  else if hasKey r .questions_answered then decide (getVal r .questions_answered ≤ (st.total_questions_attempted : ℚ))
  else if hasKey r .perfect_quiz then
    ctx.perfect_quiz && decide (getVal r .perfect_quiz ≤ (st.perfect_count : ℚ))
  else if hasKey r .speed_quiz then ctx.speed_quiz
  else if hasKey r .mock_tests_completed then decide (getVal r .mock_tests_completed ≤ (st.mock_count : ℚ))
  else if hasKey r .early_study then ctx.early_study
  else if hasKey r .night_study then ctx.night_study
  else if hasKey r .weekend_study then ctx.weekend_study
  else if hasKey r .comeback then ctx.comeback
  else if hasKey r .top_10 then st.has_top10_entry
  else if hasKey r .physics_mastery then decide (5 ≤ st.physics_mastered)
  else if hasKey r .chemistry_mastery then decide (5 ≤ st.chemistry_mastered)
  else if hasKey r .biology_mastery then decide (5 ≤ st.biology_mastered)
  else false

/-- The badge loop of `check_and_award_badges`: for each active badge not
already earned, evaluate the chain; on qualification create the
`StudentBadge`, collect the badge, and (when `xp_reward > 0`) credit the
reward through `award_xp`, which mutates `student.total_xp` (and so can
affect later `total_xp` badge checks in the same pass). -/
def badgeLoop (st : BadgeStats) (ctx : BadgeCtx) (existing : List ℕ) :
    Student → List Txn → List BadgeB → List BadgeB → Student × List Txn × List BadgeB
  | s, ledger, awarded, [] => (s, ledger, awarded)
  | s, ledger, awarded, b :: rest =>
    if b.bid ∈ existing then badgeLoop st ctx existing s ledger awarded rest
    else if badgeQualifies b s.total_xp st ctx then
      if 0 < b.xp_reward then
        let r := award_xp s ledger b.xp_reward TType.badge_earned
        badgeLoop st ctx existing r.1 r.2.1 (awarded ++ [b]) rest
      else badgeLoop st ctx existing s ledger (awarded ++ [b]) rest
    else badgeLoop st ctx existing s ledger awarded rest

/-- `GamificationService.check_and_award_badges`: run the loop over the
active catalog starting with no badges awarded. -/
def check_and_award_badges (s : Student) (ledger : List Txn) (st : BadgeStats)
    (ctx : BadgeCtx) (catalog : List BadgeB) (existing : List ℕ) :
    Student × List Txn × List BadgeB :=
  badgeLoop st ctx existing s ledger [] catalog

/-- One `DailyActivity` row of the aggregation window
(backend/analytics/models.py): all counters are non-negative integers. -/
structure ActivityRow where
  xp_earned : ℕ
  questions_attempted : ℕ
  questions_correct : ℕ
  study_time_minutes : ℕ
deriving DecidableEq, Repr

/-- One student of the ranked population together with their (already
window-filtered) `DailyActivity` rows. -/
structure StudentActivity where
  sid : ℕ
  activities : List ActivityRow
deriving DecidableEq, Repr

/-- The per-student stats dict both leaderboard methods build: `Sum(...)`
aggregates with `or 0` defaults, and
`accuracy = (correct / questions * 100) if questions > 0 else 0`. -/
structure StatRow where
  sid : ℕ
  xp : ℕ
  questions : ℕ
  accuracy : ℚ
  time : ℕ
deriving DecidableEq, Repr

/-- Aggregate one student's activity rows. -/
def aggregateStats (sa : StudentActivity) : StatRow :=
  let xp := (sa.activities.map ActivityRow.xp_earned).sum
  let questions := (sa.activities.map ActivityRow.questions_attempted).sum
  let correct := (sa.activities.map ActivityRow.questions_correct).sum
  ⟨sa.sid, xp, questions,
    if 0 < questions then ((correct : ℚ) / (questions : ℚ)) * 100 else 0,
    (sa.activities.map ActivityRow.study_time_minutes).sum⟩

/-- The sort order of `student_stats.sort(key=lambda x: (-x['xp'], -x['accuracy']))`:
ascending in the key tuple, i.e. descending XP with descending accuracy as
tie-break. -/
def lbLe (a b : StatRow) : Prop :=
  b.xp < a.xp ∨ (a.xp = b.xp ∧ b.accuracy ≤ a.accuracy)

instance : DecidableRel lbLe := fun a b => by unfold lbLe; infer_instance

/-- Python's `list.sort` is a stable sort; a stable sort by a total preorder
is a unique function of its input, so the stable `List.insertionSort` over
`lbLe` computes exactly the sorted order of the source. -/
def lbSort (l : List StatRow) : List StatRow := List.insertionSort lbLe l

/-- One `LeaderboardEntry` row (backend/gamification/models.py) as written
by a ranking run. -/
structure LBEntry where
  sid : ℕ
  xp : ℕ
  questions : ℕ
  accuracy : ℚ
  time : ℕ
  rank : ℕ
  previous_rank : Option ℕ
  rank_change : ℤ
deriving DecidableEq, Repr

/-- The `for rank, stat in enumerate(student_stats, 1)` loop of
`update_leaderboard`: 1-based dense ranks in sorted order, with
`rank_change = previous_rank - rank if previous_rank else 0`. -/
def assignRanks (prevRank : ℕ → Option ℕ) : ℕ → List StatRow → List LBEntry
  | _, [] => []
  | rank, st :: rest =>
    let prev := prevRank st.sid
    let rc : ℤ := match prev with
      | some p => (p : ℤ) - (rank : ℤ)
      | none => 0
    ⟨st.sid, st.xp, st.questions, st.accuracy, st.time, rank, prev, rc⟩
      :: assignRanks prevRank (rank + 1) rest

/-- `GamificationService.update_leaderboard` (backend/gamification/services.py
lines 238-330), after the date-window plumbing: aggregate stats for EVERY
student of the population (there is no activity filter in this method), sort
by `(-xp, -accuracy)`, and write one entry per student with 1-based ranks.
`prevRank` abstracts the `previous_entry` lookup. -/
def update_leaderboard (students : List StudentActivity) (prevRank : ℕ → Option ℕ) :
    List LBEntry :=
  assignRanks prevRank 1 (lbSort (students.map aggregateStats))

/-- Python's `round(x, 1)` on an exactly-represented value: round half to
even at one decimal place (binary-float representation error of the inputs
is not modelled; no claim depends on the rounded digit).  `x.num.fdiv x.den`
is `⌊x⌋` written with executable integer division, and `f % 2 = 0` tests
evenness. -/
def round1 (q : ℚ) : ℚ :=
  let x := q * 10
  let f : ℤ := x.num.fdiv (x.den : ℤ)
  let r := x - (f : ℚ)
  let n : ℤ := if r < 1/2 then f
               else if 1/2 < r then f + 1
               else if f % 2 = 0 then f else f + 1
  (n : ℚ) / 10

/-- `GamificationService.get_leaderboard` (backend/gamification/services.py
lines 376-454), restricted to the engine fields: aggregate per student, keep
only students with `xp > 0 or questions > 0`, round accuracy to one decimal,
sort by `(-xp, -accuracy)`, truncate to `limit` and assign 1-based ranks
(`rank_change` is hard-coded 0, `previous_rank` is not produced). -/
def get_leaderboard (students : List StudentActivity) (limit : ℕ) : List LBEntry :=
  let data := ((students.map aggregateStats).filter
      (fun st => 0 < st.xp || 0 < st.questions)).map
      (fun st => { st with accuracy := round1 st.accuracy })
  assignRanks (fun _ => none) 1 ((lbSort data).take limit)

/-- The fuel passed by `calculate_level` is irrelevant as long as it exceeds
`xp.toNat`: the fueled loop computes the same value as the unbounded `while`
loop of the source (whose tier cost stays positive). -/
theorem levelLoop_fuel_irrel :
    ∀ (f f' : ℕ) (xp required : ℤ) (level : ℕ), 1 ≤ required →
      xp.toNat < f → xp.toNat < f' →
      levelLoop f xp required level = levelLoop f' xp required level := by
  intro f
  induction f with
  | zero => intro f' xp required level _ h _; omega
  | succ f ih =>
    intro f' xp required level hreq h h'
    match f', h' with
    | f' + 1, h' =>
      simp only [levelLoop]
      split
      · next hle =>
        exact ih f' (xp - required) (required * 3 / 2) (level + 1)
          (by omega) (by omega) (by omega)
      · rfl

/-- Every branch of `streakFinish` records the new activity date. -/
theorem streakFinish_last (s : StreakS) (cur : ℕ) (d : ℤ) :
    (streakFinish s cur d).last_activity_date = some d := by
  simp only [streakFinish]
  split_ifs <;> rfl

/-- Calling `update_streak` on a record whose `last_activity_date` already
is the given date takes the early-return branch and changes nothing. -/
theorem update_streak_same_day (t : StreakS) (d : ℤ)
    (ht : t.last_activity_date = some d) : update_streak t d = t := by
  rcases t with ⟨cs, lad, ls, lss, lse, tad⟩
  simp only [StreakS.last_activity_date] at ht
  subst ht
  simp [update_streak]

/-- Every call of `update_streak` either changes nothing (same-day re-entry)
or ends in one of the `streakFinish` states. -/
theorem update_streak_cases (s : StreakS) (d : ℤ) :
    update_streak s d = s ∨ ∃ cur, update_streak s d = streakFinish s cur d := by
  rcases s with ⟨cs, lad, ls, lss, lse, tad⟩
  rcases lad with _ | last
  · exact Or.inr ⟨1, rfl⟩
  · simp only [update_streak]
    split_ifs <;> first
      | exact Or.inl rfl
      | exact Or.inr ⟨_, rfl⟩

/-- C7 — confirmed.  `update_streak` is idempotent per date: re-applying it
with the same `activity_date` returns the state of the first application
unchanged (every field included), because the first application records the
date and the second then takes the same-day early-return branch. -/
theorem C7_streak_idempotent (s : StreakS) (d : ℤ) :
    update_streak (update_streak s d) d = update_streak s d := by
  rcases update_streak_cases s d with h | ⟨cur, h⟩
  · rw [h]
    rcases update_streak_cases s d with h' | ⟨cur', h'⟩
    · rw [h']
    · -- the first call changed nothing, so `s.last_activity_date = some d`
      rw [h] at h'
      exact update_streak_same_day s d (h' ▸ streakFinish_last s cur' d)
  · rw [h]
    exact update_streak_same_day _ d (streakFinish_last s cur d)

/-- One `update_streak` call preserves `current_streak ≤ longest_streak`. -/
theorem update_streak_longest_ge (s : StreakS) (d : ℤ)
    (hs : s.current_streak ≤ s.longest_streak) :
    (update_streak s d).current_streak ≤ (update_streak s d).longest_streak := by
  rcases update_streak_cases s d with h | ⟨cur, h⟩ <;> rw [h]
  · exact hs
  · simp only [streakFinish]
    split_ifs with h1
    · simp
    · simp
      omega

/-- C9 — confirmed.  From the freshly created streak row (all counters 0,
no date) every sequence of `update_streak` calls with arbitrary dates keeps
`longest_streak ≥ current_streak`; since every prefix of a call sequence is
itself a call sequence, the invariant holds after every call. -/
theorem C9_longest_ge_current (ds : List ℤ) :
    (runStreak streakInit ds).current_streak ≤ (runStreak streakInit ds).longest_streak := by
  have main : ∀ (l : List ℤ) (s : StreakS), s.current_streak ≤ s.longest_streak →
      (runStreak s l).current_streak ≤ (runStreak s l).longest_streak := by
    intro l
    induction l with
    | nil => intro s hs; exact hs
    | cons d rest ih => intro s hs; exact ih _ (update_streak_longest_ge s d hs)
  exact main ds streakInit (by decide)

/-- C2 — counterexample.  Streak record: `current_streak = 4`,
`last_activity_date =` day 5, `longest_streak = 4`, `total_active_days = 4`.
A backdated call with day 3 (strictly earlier than day 5) does NOT reset the
streak to 1: `current_streak` stays 4, because every branch of the `elif`
chain is guarded away (`3 ≠ 5`, `3 ≠ 6`, `¬ 3 > 6`). -/
theorem C2_counterexample :
    (update_streak ⟨4, some 5, 4, some 2, some 5, 4⟩ 3).current_streak = 4 ∧
    (update_streak ⟨4, some 5, 4, some 2, some 5, 4⟩ 3).current_streak ≠ 1 :=
  ⟨by decide, by decide⟩

/-- C2 — amended.  A call whose `activity_date` is strictly earlier than
`last_activity_date` matches none of the branches, so `current_streak` is
left unchanged (not reset to 1); the shared tail still rewrites
`last_activity_date` to the earlier date and increments
`total_active_days`. -/
theorem C2_amended (s : StreakS) (d last : ℤ)
    (h : s.last_activity_date = some last) (hlt : d < last) :
    (update_streak s d).current_streak = s.current_streak ∧
    (update_streak s d).last_activity_date = some d ∧
    (update_streak s d).total_active_days = s.total_active_days + 1 := by
  rcases s with ⟨cs, lad, ls, lss, lse, tad⟩
  simp only [StreakS.last_activity_date] at h
  subst h
  have hne : d ≠ last := by omega
  have hne' : d ≠ last + 1 := by omega
  have hng : ¬ last + 1 < d := by omega
  simp only [update_streak, if_neg hne, if_neg hne', if_neg hng, streakFinish]
  split_ifs <;> simp

/-- C2 — witness for the amended theorem at the counterexample state. -/
theorem C2_amended_witness :
    (update_streak ⟨4, some 5, 4, some 2, some 5, 4⟩ 3).current_streak = 4 ∧
    (update_streak ⟨4, some 5, 4, some 2, some 5, 4⟩ 3).last_activity_date = some 3 ∧
    (update_streak ⟨4, some 5, 4, some 2, some 5, 4⟩ 3).total_active_days = 5 :=
  C2_amended ⟨4, some 5, 4, some 2, some 5, 4⟩ 3 5 rfl (by decide)

/-- C6 — confirmed.  `calculate_level` is a pure function of `total_xp`
(its only argument), and for every level `L` from 1 to 20, with
`boundary L` the cumulative threshold at which level `L + 1` begins
(`boundary 1 = 100`, each next tier costing `⌊previous * 1.5⌋`):
one XP below the threshold still maps to level `L` and the threshold itself
maps to level `L + 1`. -/
theorem C6_level_curve_round_trip (L : ℕ) (h1 : 1 ≤ L) (h2 : L ≤ 20) :
    calculate_level (boundary L - 1) = L ∧ calculate_level (boundary L) = L + 1 := by
  have key : ∀ M : ℕ, M < 21 → 1 ≤ M →
      calculate_level (boundary M - 1) = M ∧ calculate_level (boundary M) = M + 1 := by
    decide
  exact key L (by omega) h1

/-- C6 — witness at level 3 (`boundary 3 = 475`). -/
theorem C6_witness :
    (1 ≤ 3 ∧ 3 ≤ 20) ∧
    calculate_level (boundary 3 - 1) = 3 ∧ calculate_level (boundary 3) = 4 :=
  ⟨⟨by decide, by decide⟩, C6_level_curve_round_trip 3 (by decide) (by decide)⟩

/-- C10 — confirmed.  `award_xp` computes the new level before adding the
level-up bonus and never recomputes it afterwards, so the bonus can cross
the next threshold silently: from the self-consistent state
`total_xp = 240, current_level = 2` (`calculate_level 240 = 2`), awarding 85
XP yields `total_xp = 325 → level 3`, the +150 bonus lifts `total_xp` to
475 (= `boundary 3`, where level 4 begins), yet `current_level` stays 3,
and exactly one `level_up` transaction is written. -/
theorem C10_bonus_crosses_threshold :
    ∃ (s : Student) (amount : ℤ), 0 ≤ amount ∧
      calculate_level s.total_xp = s.current_level ∧
      (award_xp s [] amount TType.quiz_complete).2.2.level_up = true ∧
      ((award_xp s [] amount TType.quiz_complete).2.1.filter
        (fun t => t.ttype == TType.level_up)).length = 1 ∧
      (award_xp s [] amount TType.quiz_complete).1.current_level <
        calculate_level (award_xp s [] amount TType.quiz_complete).1.total_xp :=
  ⟨⟨240, 2⟩, 85, by decide, by decide, by decide, by decide, by decide⟩

/-- C5 — counterexample.  `award_xp` contains no input validation at all:
called with the negative amount −5 and the non-manual type `daily_goal` on
a student with 100 XP it does not reject anything — it decrements
`total_xp` to 95 and appends a normal transaction row. -/
theorem C5_counterexample :
    (award_xp ⟨100, 1⟩ [] (-5) TType.daily_goal).1.total_xp = 95 ∧
    (award_xp ⟨100, 1⟩ [] (-5) TType.daily_goal).2.1 =
      [⟨TType.daily_goal, -5, 95⟩] :=
  ⟨by decide, by decide⟩

/-- Computation of `award_xp` on the level-up path: both appended rows
carry the same post-bonus `balance_after`. -/
theorem award_xp_pos (s : Student) (l : List Txn) (amount : ℤ) (tt : TType)
    (h : s.current_level < calculate_level (s.total_xp + amount)) :
    award_xp s l amount tt =
      (⟨s.total_xp + amount + (calculate_level (s.total_xp + amount) : ℤ) * 50,
        calculate_level (s.total_xp + amount)⟩,
       l ++ [⟨tt, amount, s.total_xp + amount + (calculate_level (s.total_xp + amount) : ℤ) * 50⟩,
             ⟨TType.level_up, (calculate_level (s.total_xp + amount) : ℤ) * 50,
              s.total_xp + amount + (calculate_level (s.total_xp + amount) : ℤ) * 50⟩],
       ⟨amount, true, calculate_level (s.total_xp + amount),
        (calculate_level (s.total_xp + amount) : ℤ) * 50⟩) := by
  simp only [award_xp]
  rw [decide_eq_true h]
  simp

/-- Computation of `award_xp` when no level-up is triggered. -/
theorem award_xp_neg (s : Student) (l : List Txn) (amount : ℤ) (tt : TType)
    (h : ¬ s.current_level < calculate_level (s.total_xp + amount)) :
    award_xp s l amount tt =
      (⟨s.total_xp + amount, s.current_level⟩,
       l ++ [⟨tt, amount, s.total_xp + amount⟩],
       ⟨amount, false, calculate_level (s.total_xp + amount), 0⟩) := by
  simp only [award_xp]
  rw [decide_eq_false h]
  simp

/-- C5 — amended.  `award_xp` never rejects: with a negative amount and a
non-manual transaction type it still applies the amount — the new
`total_xp` is the old one plus the (negative) amount plus a non-negative
level bonus, and the primary transaction row carrying exactly that amount
is appended right after the existing rows. -/
theorem C5_amended (s : Student) (l : List Txn) (amount : ℤ) (tt : TType)
    (_hneg : amount < 0) (_hmanual : tt ≠ TType.manual) :
    0 ≤ (award_xp s l amount tt).2.2.level_bonus ∧
    (award_xp s l amount tt).1.total_xp =
      s.total_xp + amount + (award_xp s l amount tt).2.2.level_bonus ∧
    (award_xp s l amount tt).2.1[l.length]? =
      some ⟨tt, amount, (award_xp s l amount tt).1.total_xp⟩ := by
  clear _hneg _hmanual
  by_cases h : s.current_level < calculate_level (s.total_xp + amount)
  · rw [award_xp_pos s l amount tt h]
    refine ⟨by positivity, rfl, ?_⟩
    rw [List.getElem?_append_right (le_refl l.length)]
    simp
  · rw [award_xp_neg s l amount tt h]
    refine ⟨le_refl 0, by ring, ?_⟩
    rw [List.getElem?_append_right (le_refl l.length)]
    simp

/-- C5 — witness for the amended theorem at the counterexample input. -/
theorem C5_amended_witness :
    ((-5 : ℤ) < 0 ∧ TType.daily_goal ≠ TType.manual) ∧
    0 ≤ (award_xp ⟨100, 1⟩ [] (-5) TType.daily_goal).2.2.level_bonus ∧
    (award_xp ⟨100, 1⟩ [] (-5) TType.daily_goal).1.total_xp =
      (100 : ℤ) + (-5) + (award_xp ⟨100, 1⟩ [] (-5) TType.daily_goal).2.2.level_bonus ∧
    (award_xp ⟨100, 1⟩ [] (-5) TType.daily_goal).2.1[(0 : ℕ)]? =
      some ⟨TType.daily_goal, -5, (award_xp ⟨100, 1⟩ [] (-5) TType.daily_goal).1.total_xp⟩ :=
  ⟨⟨by decide, by decide⟩,
   C5_amended ⟨100, 1⟩ [] (-5) TType.daily_goal (by decide) (by decide)⟩

/-- Each `award_xp` call changes `total_xp` by exactly the sum of the
`xp_amount` values it appends, and the last row it writes carries
`balance_after` equal to the final `total_xp`. -/
theorem award_xp_ledger (s : Student) (l : List Txn) (amount : ℤ) (tt : TType) :
    ledgerSum (award_xp s l amount tt).2.1 =
      ledgerSum l + ((award_xp s l amount tt).1.total_xp - s.total_xp) ∧
    ∀ t, (award_xp s l amount tt).2.1.getLast? = some t →
      t.balance_after = (award_xp s l amount tt).1.total_xp := by
  by_cases h : s.current_level < calculate_level (s.total_xp + amount)
  · rw [award_xp_pos s l amount tt h]
    constructor
    · simp [ledgerSum]
      ring
    · intro t ht
      have : l ++ [(⟨tt, amount, s.total_xp + amount + (calculate_level (s.total_xp + amount) : ℤ) * 50⟩ : Txn),
          ⟨TType.level_up, (calculate_level (s.total_xp + amount) : ℤ) * 50,
           s.total_xp + amount + (calculate_level (s.total_xp + amount) : ℤ) * 50⟩] =
          (l ++ [⟨tt, amount, s.total_xp + amount + (calculate_level (s.total_xp + amount) : ℤ) * 50⟩]) ++
          [⟨TType.level_up, (calculate_level (s.total_xp + amount) : ℤ) * 50,
            s.total_xp + amount + (calculate_level (s.total_xp + amount) : ℤ) * 50⟩] := by
        simp
      rw [this, List.getLast?_concat] at ht
      cases ht
      rfl
  · rw [award_xp_neg s l amount tt h]
    constructor
    · simp [ledgerSum]
    · intro t ht
      rw [List.getLast?_concat] at ht
      cases ht
      rfl

/-- C1 — counterexample.  One call from the empty ledger:
`award_xp(initStudent, 100, quiz_complete)` levels the student up to 2 and
writes the rows `[(quiz_complete, +100, balance 200), (level_up, +100,
balance 200)]`.  The primary row violates the claimed invariant (the sum up
to and including it is 100, its `balance_after` is 200), and its
`balance_after` is equal to — not strictly lower than — the level-up
row's. -/
theorem C1_counterexample :
    ¬ balanceInvariant (processCalls initStudent [] [((100 : ℤ), TType.quiz_complete)]).2 ∧
    (processCalls initStudent [] [((100 : ℤ), TType.quiz_complete)]).2.map
      Txn.balance_after = [200, 200] :=
  ⟨by decide, by decide⟩

/-- C1 — amended.  For every sequence of `award_xp` calls from an empty
ledger, the final `total_xp` equals the sum of all `xp_amount` values
(conservation), and the LAST row written by the sequence carries
`balance_after` equal to that sum; however both rows of a level-up call are
written with the same post-bonus `balance_after` — the primary row's equals
(rather than being strictly lower than) the level-up row's, so the claimed
per-row running-sum invariant holds for the bonus row but not for the
primary row of a level-up call. -/
theorem C1_amended :
    (∀ calls : List (ℤ × TType),
      (processCalls initStudent [] calls).1.total_xp =
        ledgerSum (processCalls initStudent [] calls).2 ∧
      ∀ t, (processCalls initStudent [] calls).2.getLast? = some t →
        t.balance_after = ledgerSum (processCalls initStudent [] calls).2)
    ∧ (∀ (s : Student) (l : List Txn) (amount : ℤ) (tt : TType),
        (award_xp s l amount tt).2.2.level_up = true →
        (award_xp s l amount tt).2.1 =
          l ++ [⟨tt, amount, (award_xp s l amount tt).1.total_xp⟩,
                ⟨TType.level_up, (award_xp s l amount tt).2.2.level_bonus,
                 (award_xp s l amount tt).1.total_xp⟩]) := by
  constructor
  · have main : ∀ (calls : List (ℤ × TType)) (s : Student) (l : List Txn),
        s.total_xp = ledgerSum l →
        (∀ t, l.getLast? = some t → t.balance_after = ledgerSum l) →
        (processCalls s l calls).1.total_xp = ledgerSum (processCalls s l calls).2 ∧
        (∀ t, (processCalls s l calls).2.getLast? = some t →
          t.balance_after = ledgerSum (processCalls s l calls).2) := by
      intro calls
      induction calls with
      | nil => intro s l h1 h2; exact ⟨h1, h2⟩
      | cons c rest ih =>
        intro s l h1 h2
        obtain ⟨amount, tt⟩ := c
        obtain ⟨hsum, hlast⟩ := award_xp_ledger s l amount tt
        refine ih (award_xp s l amount tt).1 (award_xp s l amount tt).2.1 ?_ ?_
        · rw [hsum, ← h1]
          ring
        · intro t ht
          rw [hsum, ← h1]
          have := hlast t ht
          omega
    intro calls
    exact main calls initStudent [] (by decide) (by intro t ht; cases ht)
  · intro s l amount tt hup
    by_cases h : s.current_level < calculate_level (s.total_xp + amount)
    · rw [award_xp_pos s l amount tt h]
    · rw [award_xp_neg s l amount tt h] at hup
      cases hup

/-- C1 — witness.  The amended theorem applied to the single-call sequence
of the counterexample. -/
theorem C1_amended_witness :
    (⟨TType.level_up, (100 : ℤ), (200 : ℤ)⟩ : Txn).balance_after =
      ledgerSum (processCalls initStudent [] [((100 : ℤ), TType.quiz_complete)]).2 ∧
    (award_xp initStudent [] 100 TType.quiz_complete).2.1 =
      [] ++ [⟨TType.quiz_complete, 100,
              (award_xp initStudent [] 100 TType.quiz_complete).1.total_xp⟩,
             ⟨TType.level_up,
              (award_xp initStudent [] 100 TType.quiz_complete).2.2.level_bonus,
              (award_xp initStudent [] 100 TType.quiz_complete).1.total_xp⟩] :=
  ⟨(C1_amended.1 [((100 : ℤ), TType.quiz_complete)]).2
      ⟨TType.level_up, (100 : ℤ), (200 : ℤ)⟩ (by decide),
   C1_amended.2 initStudent [] 100 TType.quiz_complete (by decide)⟩

/-- The threshold ladder is monotone in the score. -/
theorem masteryLevelOf_mono {a b : ℚ} (h : a ≤ b) :
    masteryLevelOf a ≤ masteryLevelOf b := by
  unfold masteryLevelOf
  split_ifs <;> first | omega | linarith

/-- C8 — confirmed.  Mastery is monotone in correctness: for two
`TopicMastery` states with the same cumulative `total_questions_attempted`
but strictly more cumulative `total_correct_answers` in the second (with
correct ≤ attempted), feeding both the same new attempt never leaves the
state with more correct answers at a strictly lower `mastery_level`. -/
theorem C8_mastery_monotone (m₁ m₂ : MasteryS) (correct total avg_time : ℕ)
    (htqa : m₁.total_questions_attempted = m₂.total_questions_attempted)
    (hlt : m₁.total_correct_answers < m₂.total_correct_answers)
    (hle : m₂.total_correct_answers ≤ m₂.total_questions_attempted) :
    (update_mastery m₁ correct total avg_time).mastery_level ≤
      (update_mastery m₂ correct total avg_time).mastery_level := by
  have htq : (0 : ℕ) < m₂.total_questions_attempted + total := by omega
  have htq1 : (0 : ℕ) < m₁.total_questions_attempted + total := by rw [htqa]; exact htq
  simp only [update_mastery, if_pos htq, if_pos htq1]
  apply masteryLevelOf_mono
  rw [htqa]
  have hw : (0 : ℚ) ≤ 1/2 + 1/2 * min 1 (((m₂.total_questions_attempted + total : ℕ) : ℚ) / 50) := by
    have hm : (0 : ℚ) ≤ min 1 (((m₂.total_questions_attempted + total : ℕ) : ℚ) / 50) :=
      le_min (by norm_num) (by positivity)
    linarith
  have hD : (0 : ℚ) < ((m₂.total_questions_attempted + total : ℕ) : ℚ) := by
    exact_mod_cast htq
  have hnum : ((m₁.total_correct_answers + correct : ℕ) : ℚ) ≤
      ((m₂.total_correct_answers + correct : ℕ) : ℚ) := by
    have : m₁.total_correct_answers + correct ≤ m₂.total_correct_answers + correct := by omega
    exact_mod_cast this
  have hacc : ((m₁.total_correct_answers + correct : ℕ) : ℚ) /
        ((m₂.total_questions_attempted + total : ℕ) : ℚ) * 100 ≤
      ((m₂.total_correct_answers + correct : ℕ) : ℚ) /
        ((m₂.total_questions_attempted + total : ℕ) : ℚ) * 100 := by
    have := (div_le_div_iff_of_pos_right hD).mpr hnum
    linarith
  exact mul_le_mul_of_nonneg_right hacc hw

/-- C8 — witness: 2/10 versus 9/10 historical answers, same new attempt. -/
theorem C8_witness :
    ((10 : ℕ) = 10 ∧ (2 : ℕ) < 9 ∧ (9 : ℕ) ≤ 10) ∧
    (update_mastery ⟨10, 2, 20, 30, 0, 1, true⟩ 5 10 30).mastery_level ≤
      (update_mastery ⟨10, 9, 90, 30, 0, 1, true⟩ 5 10 30).mastery_level :=
  ⟨⟨rfl, by decide, by decide⟩,
   C8_mastery_monotone ⟨10, 2, 20, 30, 0, 1, true⟩ ⟨10, 9, 90, 30, 0, 1, true⟩
     5 10 30 rfl (by decide) (by decide)⟩

/-- A requirements object none of whose keys is recognised contains no
recognised key. -/
theorem hasKey_eq_false (r : List (ReqKey × ℚ)) (k : ReqKey)
    (h : ∀ p ∈ r, recognizedKey p.1 = false) (hk : recognizedKey k = true) :
    hasKey r k = false := by
  rw [hasKey, List.any_eq_false]
  intro p hp
  simp only [beq_iff_eq]
  intro hek
  rw [← hek] at hk
  rw [h p hp] at hk
  cases hk

/-- A badge whose requirements contain only unrecognised keys falls through
the whole `elif` chain and never qualifies. -/
theorem badgeQualifies_unrecognized (b : BadgeB) (xp : ℤ) (st : BadgeStats)
    (ctx : BadgeCtx) (h : ∀ p ∈ b.requirements, recognizedKey p.1 = false) :
    badgeQualifies b xp st ctx = false := by
  have hk : ∀ k, recognizedKey k = true → hasKey b.requirements k = false :=
    fun k => hasKey_eq_false b.requirements k h
  simp only [badgeQualifies]
  rw [hk .streak_days rfl, hk .quizzes_completed rfl, hk .min_accuracy rfl,
    hk .total_xp rfl, hk .topics_mastered rfl, hk .questions_answered rfl,
    hk .perfect_quiz rfl, hk .speed_quiz rfl, hk .mock_tests_completed rfl,
    hk .early_study rfl, hk .night_study rfl, hk .weekend_study rfl,
    hk .comeback rfl, hk .top_10 rfl, hk .physics_mastery rfl,
    hk .chemistry_mastery rfl, hk .biology_mastery rfl]
  simp

/-- C3 — counterexample.  A badge whose requirements dictionary has TWO
keys, `{streak_days: 1, total_xp: 1000000}`, still qualifies (and is
awarded) for a student with a 1-day streak and 0 XP: the `elif` chain
dispatches on the first recognised key it finds (`streak_days`) and ignores
every other key, so a multi-key requirements shape does not fail safe. -/
theorem C3_counterexample :
    badgeQualifies ⟨1, [(ReqKey.streak_days, 1), (ReqKey.total_xp, 1000000)], 0⟩ 0
      ⟨some 1, 0, 0, 0, 0, 0, 0, false, 0, 0, 0⟩
      ⟨false, false, false, false, false, false⟩ = true ∧
    (check_and_award_badges ⟨0, 1⟩ [] ⟨some 1, 0, 0, 0, 0, 0, 0, false, 0, 0, 0⟩
      ⟨false, false, false, false, false, false⟩
      [⟨1, [(ReqKey.streak_days, 1), (ReqKey.total_xp, 1000000)], 0⟩] []).2.2 =
      [⟨1, [(ReqKey.streak_days, 1), (ReqKey.total_xp, 1000000)], 0⟩] :=
  ⟨by decide, by decide⟩

/-- C3 — amended.  Qualification is decided by the FIRST recognised key of
the fixed `elif` chain present in the requirements; additional keys are
ignored rather than disqualifying (see the counterexample).  What does hold
is the safety default for unrecognised shapes: a badge none of whose
requirement keys is recognised never qualifies, and a catalog of such
badges awards nothing. -/
theorem C3_amended :
    (∀ (b : BadgeB) (xp : ℤ) (st : BadgeStats) (ctx : BadgeCtx),
      (∀ p ∈ b.requirements, recognizedKey p.1 = false) →
      badgeQualifies b xp st ctx = false)
    ∧ (∀ (s : Student) (ledger : List Txn) (st : BadgeStats) (ctx : BadgeCtx)
        (catalog : List BadgeB) (existing : List ℕ),
        (∀ b ∈ catalog, ∀ p ∈ b.requirements, recognizedKey p.1 = false) →
        (check_and_award_badges s ledger st ctx catalog existing).2.2 = []) := by
  refine ⟨badgeQualifies_unrecognized, ?_⟩
  intro s ledger st ctx catalog existing h
  have main : ∀ (cat : List BadgeB) (s' : Student) (l' : List Txn),
      (∀ b ∈ cat, ∀ p ∈ b.requirements, recognizedKey p.1 = false) →
      badgeLoop st ctx existing s' l' [] cat = (s', l', []) := by
    intro cat
    induction cat with
    | nil => intro s' l' _; rfl
    | cons b rest ih =>
      intro s' l' hb
      have hq := badgeQualifies_unrecognized b s'.total_xp st ctx (hb b (by simp))
      by_cases hex : b.bid ∈ existing
      · rw [badgeLoop, if_pos hex]
        exact ih s' l' (fun b' hb' => hb b' (by simp [hb']))
      · rw [badgeLoop, if_neg hex, hq]
        simp only [Bool.false_eq_true, if_false]
        exact ih s' l' (fun b' hb' => hb b' (by simp [hb']))
  exact congrArg (fun r => r.2.2) (main catalog s ledger h)

/-- C3 — witness for the amended theorem: a single-key badge with an
unrecognised key qualifies for nobody, whatever the stats and context. -/
theorem C3_amended_witness :
    badgeQualifies ⟨2, [(ReqKey.unknown 0, 3)], 10⟩ 50
      ⟨some 9, 9, 99, 9, 9, 9, 9, true, 9, 9, 9⟩
      ⟨true, true, true, true, true, true⟩ = false ∧
    (check_and_award_badges ⟨50, 1⟩ [] ⟨some 9, 9, 99, 9, 9, 9, 9, true, 9, 9, 9⟩
      ⟨true, true, true, true, true, true⟩
      [⟨2, [(ReqKey.unknown 0, 3)], 10⟩] []).2.2 = [] :=
  ⟨C3_amended.1 ⟨2, [(ReqKey.unknown 0, 3)], 10⟩ 50
      ⟨some 9, 9, 99, 9, 9, 9, 9, true, 9, 9, 9⟩
      ⟨true, true, true, true, true, true⟩ (by decide),
   C3_amended.2 ⟨50, 1⟩ [] ⟨some 9, 9, 99, 9, 9, 9, 9, true, 9, 9, 9⟩
      ⟨true, true, true, true, true, true⟩
      [⟨2, [(ReqKey.unknown 0, 3)], 10⟩] [] (by decide)⟩

/-- `assignRanks` writes exactly one entry per stats row. -/
theorem assignRanks_length (p : ℕ → Option ℕ) :
    ∀ (r : ℕ) (l : List StatRow), (assignRanks p r l).length = l.length := by
  intro r l
  induction l generalizing r with
  | nil => rfl
  | cons st rest ih => simp [assignRanks, ih]

/-- Every stats row yields an entry with its student id. -/
theorem assignRanks_sid (p : ℕ → Option ℕ) :
    ∀ (r : ℕ) (l : List StatRow) (st : StatRow), st ∈ l →
      ∃ e ∈ assignRanks p r l, e.sid = st.sid := by
  intro r l
  induction l generalizing r with
  | nil => intro st h; cases h
  | cons hd rest ih =>
    intro st h
    rcases List.mem_cons.mp h with h | h
    · subst h
      exact ⟨_, List.mem_cons_self _ _, rfl⟩
    · obtain ⟨e, he, hsid⟩ := ih (r + 1) st h
      exact ⟨e, List.mem_cons_of_mem _ he, hsid⟩

/-- Every entry produced by `assignRanks` copies its counters from some
stats row of the input. -/
theorem assignRanks_mem (p : ℕ → Option ℕ) :
    ∀ (r : ℕ) (l : List StatRow) (e : LBEntry), e ∈ assignRanks p r l →
      ∃ st ∈ l, e.xp = st.xp ∧ e.questions = st.questions := by
  intro r l
  induction l generalizing r with
  | nil => intro e h; cases h
  | cons hd rest ih =>
    intro e h
    rcases List.mem_cons.mp h with h | h
    · subst h
      exact ⟨hd, List.mem_cons_self _ _, rfl, rfl⟩
    · obtain ⟨st, hst, hxp, hq⟩ := ih (r + 1) e h
      exact ⟨st, List.mem_cons_of_mem _ hst, hxp, hq⟩

/-- C4 — counterexample.  A population consisting of one student with NO
activity in the window: `update_leaderboard` still writes a snapshot entry
for them (with `xp_earned = 0` and `questions_answered = 0`); the loop of
`update_leaderboard` iterates over every profile and has no activity
filter. -/
theorem C4_counterexample :
    (update_leaderboard [⟨7, []⟩] (fun _ => none)).map LBEntry.sid = [7] ∧
    (update_leaderboard [⟨7, []⟩] (fun _ => none)).map
      (fun e => (e.xp, e.questions)) = [(0, 0)] :=
  ⟨by decide, by decide⟩

/-- C4 — amended.  The snapshot-writing run (`update_leaderboard`) ranks the
ENTIRE population — every student gets an entry, zero-activity students
included; only the dynamic read path (`get_leaderboard`) excludes students
with `xp_earned = 0` and `questions_answered = 0`, every entry it returns
having `xp_earned > 0` or `questions_answered > 0`. -/
theorem C4_amended :
    (∀ (students : List StudentActivity) (prevRank : ℕ → Option ℕ),
      (update_leaderboard students prevRank).length = students.length ∧
      ∀ sa ∈ students, ∃ e ∈ update_leaderboard students prevRank, e.sid = sa.sid)
    ∧ (∀ (students : List StudentActivity) (limit : ℕ),
        ∀ e ∈ get_leaderboard students limit, 0 < e.xp ∨ 0 < e.questions) := by
  constructor
  · intro students prevRank
    constructor
    · rw [update_leaderboard, assignRanks_length, lbSort,
        (List.perm_insertionSort lbLe _).length_eq, List.length_map]
    · intro sa hsa
      have h1 : aggregateStats sa ∈ students.map aggregateStats :=
        List.mem_map_of_mem aggregateStats hsa
      have h2 : aggregateStats sa ∈ lbSort (students.map aggregateStats) := by
        rw [lbSort]
        exact (List.perm_insertionSort lbLe _).mem_iff.mpr h1
      obtain ⟨e, he, hsid⟩ := assignRanks_sid prevRank 1 _ (aggregateStats sa) h2
      exact ⟨e, he, hsid⟩
  · intro students limit e he
    rw [get_leaderboard] at he
    obtain ⟨st, hst, hxp, hq⟩ := assignRanks_mem _ 1 _ e he
    have hst' : st ∈ lbSort (((students.map aggregateStats).filter
        (fun s => 0 < s.xp || 0 < s.questions)).map
        (fun s => { s with accuracy := round1 s.accuracy })) :=
      List.mem_of_mem_take hst
    rw [lbSort] at hst'
    have hst'' := (List.perm_insertionSort lbLe _).mem_iff.mp hst'
    obtain ⟨s₀, hs₀, hmap⟩ := List.mem_map.mp hst''
    have hpred := List.of_mem_filter hs₀
    have hxp0 : st.xp = s₀.xp := by rw [← hmap]
    have hq0 : st.questions = s₀.questions := by rw [← hmap]
    rw [hxp, hq, hxp0, hq0]
    simpa using hpred

/-- C4 — witness: the amended theorem at a one-student population (snapshot
side) and at a one-active-student population (read side). -/
theorem C4_amended_witness :
    (update_leaderboard [⟨7, []⟩] (fun _ => none)).length = 1 ∧
    (∃ e ∈ update_leaderboard [⟨7, []⟩] (fun _ => none), e.sid = 7) ∧
    (0 < (⟨3, 10, 0, 0, 2, 1, none, 0⟩ : LBEntry).xp ∨
     0 < (⟨3, 10, 0, 0, 2, 1, none, 0⟩ : LBEntry).questions) :=
  ⟨(C4_amended.1 [⟨7, []⟩] (fun _ => none)).1,
   (C4_amended.1 [⟨7, []⟩] (fun _ => none)).2 ⟨7, []⟩ (by decide),
   C4_amended.2 [⟨3, [⟨10, 0, 0, 2⟩]⟩] 10 ⟨3, 10, 0, 0, 2, 1, none, 0⟩
     (by simp [get_leaderboard, aggregateStats, round1, lbSort, assignRanks,
       List.insertionSort])⟩

end DailyTaiyari
